import Mathlib

/-!
# Verification of the roller-coaster track geometry and ride core

Shallow embedding of the track geometry, section-table, sampling, physics and
state-store code of the repository.  Vectors are triples of real numbers
mirroring `THREE.Vector3`; floating-point numbers are modelled by `ℝ`.

Sources embedded:
* the coaster-car module (`sampleVerticalLoopAnalytically`, `computeRollFrame`,
  `computeRollArcLength`, `sampleHybridTrack`, the sections `useMemo` body and
  `computeRealisticSpeed`);
* the state store (`startRide`, `stopRide`, `createLoopAtPoint` — both of the
  two variants present in the store file).

The curve builder (`getTrackCurve`, source file `Track`) is not among the given
sources; it is modelled from the spec (§4.1, uniform Catmull-Rom-equivalent
interpolating spline) and clearly marked below.  All section-table and sampler
theorems that can be stated over an arbitrary curve are stated that way.
-/

noncomputable section

open Real

/-- 3-component real vector, mirroring `THREE.Vector3`. -/
@[ext] structure Vec3 where
  x : ℝ
  y : ℝ
  z : ℝ

namespace Vec3

instance : Zero Vec3 := ⟨⟨0, 0, 0⟩⟩

instance : Add Vec3 := ⟨fun a b => ⟨a.x + b.x, a.y + b.y, a.z + b.z⟩⟩

instance : Sub Vec3 := ⟨fun a b => ⟨a.x - b.x, a.y - b.y, a.z - b.z⟩⟩

instance : Neg Vec3 := ⟨fun a => ⟨-a.x, -a.y, -a.z⟩⟩

instance : SMul ℝ Vec3 := ⟨fun c a => ⟨c * a.x, c * a.y, c * a.z⟩⟩

/-- Dot product, mirroring `THREE.Vector3.dot`. -/
def dot (a b : Vec3) : ℝ := a.x * b.x + a.y * b.y + a.z * b.z

/-- Cross product, mirroring `THREE.Vector3.crossVectors`. -/
def cross (a b : Vec3) : Vec3 :=
  ⟨a.y * b.z - a.z * b.y, a.z * b.x - a.x * b.z, a.x * b.y - a.y * b.x⟩

/-- Squared length, mirroring `THREE.Vector3.lengthSq`. -/
def lengthSq (a : Vec3) : ℝ := a.dot a

/-- Euclidean length, mirroring `THREE.Vector3.length`. -/
def length (a : Vec3) : ℝ := Real.sqrt (a.dot a)

/-- Distance between two points, mirroring `THREE.Vector3.distanceTo`. -/
def distanceTo (a b : Vec3) : ℝ := (a - b).length

/-- Normalization, mirroring `THREE.Vector3.normalize`, which divides by
`length || 1`: the zero vector (length `0`) is returned unchanged. -/
def normalize (a : Vec3) : Vec3 :=
  if a.length = 0 then a else a.length⁻¹ • a

end Vec3

/-- Quaternion, mirroring `THREE.Quaternion` (components `x y z w`). -/
structure Quat where
  x : ℝ
  y : ℝ
  z : ℝ
  w : ℝ

/-- `THREE.Quaternion.setFromAxisAngle` (axis assumed normalized). -/
def quatFromAxisAngle (axis : Vec3) (angle : ℝ) : Quat :=
  let halfAngle := angle / 2
  let s := Real.sin halfAngle
  ⟨axis.x * s, axis.y * s, axis.z * s, Real.cos halfAngle⟩

/-- `THREE.Vector3.applyQuaternion`: `v + w·t + (qv × t)` with
`t = 2 (qv × v)`. -/
def applyQuaternion (q : Quat) (v : Vec3) : Vec3 :=
  let qv : Vec3 := ⟨q.x, q.y, q.z⟩
  let t := (2 : ℝ) • qv.cross v
  v + q.w • t + qv.cross t

/-- The parametric track curve: `getPoint`/`getTangent` queries, as used by the
coaster-car module (the interface of the curve returned by `getTrackCurve`). -/
structure Curve where
  getPoint : ℝ → Vec3
  getTangent : ℝ → Vec3

/-- Loop frame captured at a loop entry (interface `BarrelRollFrame`). -/
structure BarrelRollFrame where
  entryPos : Vec3
  forward : Vec3
  up : Vec3
  right : Vec3
  radius : ℝ
  pitch : ℝ

/-- Result of sampling the track: position, tangent and up vector. -/
structure TrackSample where
  point : Vec3
  tangent : Vec3
  up : Vec3

/-- The eased angular parameter `theta = twoPi * (t - sin(twoPi*t)/twoPi)` used
by the loop sampler and by the loop arc-length estimator. -/
def loopTheta (t : ℝ) : ℝ :=
  Real.pi * 2 * (t - Real.sin (Real.pi * 2 * t) / (Real.pi * 2))

/-- Its derivative `dThetaDt = twoPi * (1 - cos(twoPi*t))` from the source. -/
def loopDTheta (t : ℝ) : ℝ :=
  Real.pi * 2 * (1 - Real.cos (Real.pi * 2 * t))

/-- `sampleVerticalLoopAnalytically`: vertical loop with corkscrew offset,
translated line by line from the coaster-car module. -/
def sampleVerticalLoopAnalytically (frame : BarrelRollFrame) (t : ℝ) : TrackSample :=
  let corkscrewOffset := frame.radius * 0.4
  let theta := loopTheta t
  let dThetaDt := loopDTheta t
  let point := frame.entryPos
    + (frame.pitch * t + frame.radius * Real.sin theta) • frame.forward
    + (frame.radius * (1 - Real.cos theta)) • frame.up
    + (corkscrewOffset * Real.sin theta) • frame.right
  let tangent := Vec3.normalize
    ((frame.pitch + frame.radius * Real.cos theta * dThetaDt) • frame.forward
      + (frame.radius * Real.sin theta * dThetaDt) • frame.up
      + (corkscrewOffset * Real.cos theta * dThetaDt) • frame.right)
  let rotatedUp := Vec3.normalize
    ((Real.cos theta) • frame.up + (-Real.sin theta) • frame.forward)
  ⟨point, tangent, rotatedUp⟩

/-- `computeRollFrame`: builds the loop entry frame from the spline tangent and
world up (Gram-Schmidt with world-X fallback), translated from the source. -/
def computeRollFrame (spline : Curve) (splineT radius pitch : ℝ)
    (rollOffset : Vec3) : BarrelRollFrame :=
  let entryPos := spline.getPoint splineT + rollOffset
  let forward := (spline.getTangent splineT).normalize
  let worldUp : Vec3 := ⟨0, 1, 0⟩
  let upDot := worldUp.dot forward
  let entryUp0 := worldUp - upDot • forward
  let entryUp :=
    if entryUp0.length > 0.001 then entryUp0.normalize
    else
      let e : Vec3 := ⟨1, 0, 0⟩
      let d := e.dot forward
      (e - d • forward).normalize
  let right := (forward.cross entryUp).normalize
  ⟨entryPos, forward, entryUp, right, radius, pitch⟩

/-- `computeRollArcLength`: arc length of the analytic loop, estimated by 100
uniform sub-steps, translated from the source. -/
def computeRollArcLength (radius pitch : ℝ) : ℝ :=
  let steps : ℕ := 100
  (List.range steps).foldl (fun len i =>
    let t1 := (i : ℝ) / steps
    let t2 := ((i : ℝ) + 1) / steps
    let theta1 := loopTheta t1
    let theta2 := loopTheta t2
    let dTheta := theta2 - theta1
    let dForward := pitch / steps
    let dRadial := radius * Real.sqrt (dTheta * dTheta)
    len + Real.sqrt (dForward * dForward + dRadial * dRadial)) 0

/-- A control point of the track (`TrackPoint` of the store). -/
structure TrackPoint where
  id : String
  position : Vec3
  tilt : ℝ

/-- A declared analytic loop (`LoopSegment` of the store). -/
structure LoopSegment where
  id : String
  entryPointId : String
  radius : ℝ
  pitch : ℝ

/-- Section kind (`type: "spline" | "roll"`). -/
inductive SectionType where
  | spline
  | roll
deriving DecidableEq

/-- One entry of the section table (interface `TrackSection`). -/
structure TrackSection where
  type : SectionType
  startProgress : ℝ
  endProgress : ℝ
  arcLength : ℝ
  rollFrame : Option BarrelRollFrame := none
  splineStartT : Option ℝ := none
  splineEndT : Option ℝ := none
  pointIndex : Option ℕ := none

/-- The JS `Map` built by iterating `loopMap.set(seg.entryPointId, seg)`:
lookup returns the last segment in the list with the given `entryPointId`. -/
def lookupLoop (segs : List LoopSegment) (key : String) : Option LoopSegment :=
  segs.foldl (fun acc seg => if seg.entryPointId = key then some seg else acc) none

/-- Chord-sum arc length of a spline sub-range: 10 uniform sub-samples, from
the sections `useMemo` body. -/
def splineSegmentLength (curve : Curve) (splineStartT splineEndT : ℝ) : ℝ :=
  let subSamples : ℕ := 10
  (List.range subSamples).foldl (fun len s =>
    let t1 := splineStartT + ((s : ℝ) / subSamples) * (splineEndT - splineStartT)
    let t2 := splineStartT + (((s : ℝ) + 1) / subSamples) * (splineEndT - splineStartT)
    len + (curve.getPoint t1).distanceTo (curve.getPoint t2)) 0

/-- The carried-up-vector update at the end of each spline section (rotate the
carried up by the rotation between the carried and the new tangent, re-project,
conditionally re-normalize), from the sections `useMemo` body.  This carried
state is written each iteration but never read into any section field. -/
def transportUp (prevTangent prevUp endTangent : Vec3) : Vec3 :=
  let d := max (-1) (min 1 (prevTangent.dot endTangent))
  let u :=
    if d < 0.9999 ∧ d > -0.9999 then
      let axis := prevTangent.cross endTangent
      if axis.length > 0.0001 then
        applyQuaternion (quatFromAxisAngle axis.normalize (Real.arccos d)) prevUp
      else prevUp
    else prevUp
  let upDot := u.dot endTangent
  let u2 := u - upDot • endTangent
  if u2.length > 0.001 then u2.normalize else u2

/-- Running state of the section-table construction loop. -/
structure BuildState where
  sections : List TrackSection
  accumulatedLength : ℝ
  rollOffset : Vec3
  prevTangent : Vec3
  prevUp : Vec3

/-- Initial build state (lines before the point loop in the `useMemo` body). -/
def initBuildState (curve : Curve) : BuildState :=
  let prevTangent := (curve.getTangent 0).normalize
  let worldUp : Vec3 := ⟨0, 1, 0⟩
  let initDot := worldUp.dot prevTangent
  let u0 := worldUp - initDot • prevTangent
  let u1 :=
    if u0.length < 0.01 then
      let e : Vec3 := ⟨1, 0, 0⟩
      e - (e.dot prevTangent) • prevTangent
    else u0
  ⟨[], 0, 0, prevTangent, u1.normalize⟩

/-- One iteration of the section-table construction loop (loop body over point
index `i` in the `useMemo` body). -/
def buildStep (curve : Curve) (segs : List LoopSegment) (numPoints : ℕ)
    (isLooped : Bool) (st : BuildState) (ipt : ℕ × TrackPoint) : BuildState :=
  let i := ipt.1
  let point := ipt.2
  let totalSplineSegments : ℕ := if isLooped then numPoints else numPoints - 1
  let st1 :=
    match lookupLoop segs point.id with
    | some loopSeg =>
      let splineT := (i : ℝ) / (totalSplineSegments : ℝ)
      let rollFrame := computeRollFrame curve splineT loopSeg.radius loopSeg.pitch
        st.rollOffset
      let rollArcLength := computeRollArcLength loopSeg.radius loopSeg.pitch
      { sections := st.sections ++
          [{ type := SectionType.roll, startProgress := 0, endProgress := 0,
             arcLength := rollArcLength, rollFrame := some rollFrame,
             pointIndex := some i }],
        accumulatedLength := st.accumulatedLength + rollArcLength,
        rollOffset := st.rollOffset + loopSeg.pitch • rollFrame.forward,
        prevTangent := rollFrame.forward,
        prevUp := rollFrame.up }
    | none => st
  if numPoints - 1 ≤ i ∧ isLooped = false then st1
  else
    let splineStartT := (i : ℝ) / (totalSplineSegments : ℝ)
    let splineEndT := ((i : ℝ) + 1) / (totalSplineSegments : ℝ)
    let segmentLength := splineSegmentLength curve splineStartT splineEndT
    let endTangent := (curve.getTangent splineEndT).normalize
    { sections := st1.sections ++
        [{ type := SectionType.spline, startProgress := 0, endProgress := 0,
           arcLength := segmentLength, splineStartT := some splineStartT,
           splineEndT := some splineEndT, pointIndex := some i }],
      accumulatedLength := st1.accumulatedLength + segmentLength,
      rollOffset := st1.rollOffset,
      prevTangent := endTangent,
      prevUp := transportUp st1.prevTangent st1.prevUp endTangent }

/-- The whole construction loop: fold over the indexed track points. -/
def buildSectionsRaw (curve : Curve) (trackPoints : List TrackPoint)
    (segs : List LoopSegment) (isLooped : Bool) : BuildState :=
  trackPoints.enum.foldl (buildStep curve segs trackPoints.length isLooped)
    (initBuildState curve)

/-- The final normalization pass: assign `startProgress`/`endProgress` from the
running length over the accumulated total. -/
def normalizeSectionsFrom (total : ℝ) : ℝ → List TrackSection → List TrackSection
  | _, [] => []
  | running, s :: rest =>
    { s with startProgress := running / total,
             endProgress := (running + s.arcLength) / total }
      :: normalizeSectionsFrom total (running + s.arcLength) rest

/-- Sum of the `arcLength` fields of a section list. -/
def sumArc (ss : List TrackSection) : ℝ := (ss.map TrackSection.arcLength).sum

/-- Total measured arc length accumulated by the section builder. -/
def totalArcLength (curve : Curve) (trackPoints : List TrackPoint)
    (segs : List LoopSegment) (isLooped : Bool) : ℝ :=
  (buildSectionsRaw curve trackPoints segs isLooped).accumulatedLength

/-- The Section Table Builder for a given curve: construction loop followed by
the normalization pass (the sections `useMemo` body after `getTrackCurve`). -/
def buildSections (curve : Curve) (trackPoints : List TrackPoint)
    (segs : List LoopSegment) (isLooped : Bool) : List TrackSection :=
  let st := buildSectionsRaw curve trackPoints segs isLooped
  normalizeSectionsFrom st.accumulatedLength 0 st.sections

/-- Uniform Catmull-Rom basis applied to four control points. -/
def catmullRomPoint (p0 p1 p2 p3 : Vec3) (s : ℝ) : Vec3 :=
  (2⁻¹ : ℝ) • ((2 : ℝ) • p1 + s • (p2 - p0)
    + (s * s) • ((2 : ℝ) • p0 - (5 : ℝ) • p1 + (4 : ℝ) • p2 - p3)
    + (s * s * s) • ((3 : ℝ) • p1 - p0 - (3 : ℝ) • p2 + p3))

/-- Derivative of `catmullRomPoint` in `s`. -/
def catmullRomTangent (p0 p1 p2 p3 : Vec3) (s : ℝ) : Vec3 :=
  (2⁻¹ : ℝ) • ((p2 - p0)
    + (2 * s) • ((2 : ℝ) • p0 - (5 : ℝ) • p1 + (4 : ℝ) • p2 - p3)
    + (3 * (s * s)) • ((3 : ℝ) • p1 - p0 - (3 : ℝ) • p2 + p3))

/-- Control-point selection: wrap-around for a closed curve, end clamping for
an open one. -/
def ctrlPoint (ps : List Vec3) (closed : Bool) (j : ℤ) : Vec3 :=
  if closed then ps.getD (j % (ps.length : ℤ)).toNat 0
  else ps.getD ((max 0 (min j ((ps.length : ℤ) - 1))).toNat) 0

/-- Modelled from the spec: the Curve Builder `getTrackCurve` lives in the
source file `Track`, which is not among the given sources.  Per §4.1 it is a
smooth interpolating spline, "Catmull-Rom-equivalent: passes through every
control point", with `pointAt(t)`/`tangentAt(t)` for `t ∈ [0,1)`, closed when
the loop flag is set.  Modelled as a uniform Catmull-Rom over the control
points: `t` scaled by the segment count (`n` closed, `n-1` open), split into a
segment index and a local parameter. -/
def catmullRomCurve (ps : List Vec3) (closed : Bool) : Curve :=
  let segments : ℕ := if closed then ps.length else ps.length - 1
  { getPoint := fun t =>
      let u := t * (segments : ℝ)
      let i : ℤ := max 0 (min ⌊u⌋ ((segments : ℤ) - 1))
      let s := u - (i : ℝ)
      catmullRomPoint (ctrlPoint ps closed (i - 1)) (ctrlPoint ps closed i)
        (ctrlPoint ps closed (i + 1)) (ctrlPoint ps closed (i + 2)) s
    getTangent := fun t =>
      let u := t * (segments : ℝ)
      let i : ℤ := max 0 (min ⌊u⌋ ((segments : ℤ) - 1))
      let s := u - (i : ℝ)
      catmullRomTangent (ctrlPoint ps closed (i - 1)) (ctrlPoint ps closed i)
        (ctrlPoint ps closed (i + 1)) (ctrlPoint ps closed (i + 2)) s }

/-- Modelled from the spec: `getTrackCurve` fails (`none`) below 2 points
(§4.1 "Fails (returns none) if fewer than 2 points"). -/
def getTrackCurve (trackPoints : List TrackPoint) (isLooped : Bool) : Option Curve :=
  if trackPoints.length < 2 then none
  else some (catmullRomCurve (trackPoints.map (fun p => p.position)) isLooped)

/-- The full section pipeline of the `useMemo` body: empty below 2 points or
without a curve, otherwise `buildSections` on the built curve. -/
def coasterSections (trackPoints : List TrackPoint) (segs : List LoopSegment)
    (isLooped : Bool) : List TrackSection :=
  if trackPoints.length < 2 then []
  else
    match getTrackCurve trackPoints isLooped with
    | none => []
    | some curve => buildSections curve trackPoints segs isLooped

/-- `Math.max(0, Math.min(progress, 0.9999))` from `sampleHybridTrack`. -/
def clampProgress (p : ℝ) : ℝ := max 0 (min p 0.9999)

/-- The section-selection loop of `sampleHybridTrack`: first section whose
`[startProgress, endProgress)` contains `p`. -/
def pickSection (p : ℝ) : List TrackSection → Option TrackSection
  | [] => none
  | s :: rest =>
    if s.startProgress ≤ p ∧ p < s.endProgress then some s else pickSection p rest

/-- The lateral offset replay of the spline branch of `sampleHybridTrack`:
sum of `pitch · tangent` over loop points at indices `≤ pointIndex`. -/
def hybridRollOffset (spline : Curve) (segs : List LoopSegment)
    (trackPoints : List TrackPoint) (isLooped : Bool) (pointIndex : ℕ) : Vec3 :=
  let totalSplineSegments : ℕ :=
    if isLooped then trackPoints.length else trackPoints.length - 1
  ((trackPoints.take (pointIndex + 1)).enum).foldl (fun off itp =>
    match lookupLoop segs itp.2.id with
    | some loopSeg =>
      off + loopSeg.pitch •
        (spline.getTangent ((itp.1 : ℝ) / (totalSplineSegments : ℝ))).normalize
    | none => off) 0

/-- The up-vector re-derivation of the spline branch of `sampleHybridTrack`
(world-up projected perpendicular to the tangent, world-X fallback; the length
test here is on `lengthSq`, unlike `computeRollFrame`). -/
def gramSchmidtUp (tangent : Vec3) : Vec3 :=
  let up0 : Vec3 := ⟨0, 1, 0⟩
  let d := up0.dot tangent
  let u := up0 - d • tangent
  if u.lengthSq > 0.001 then u.normalize
  else
    let e : Vec3 := ⟨1, 0, 0⟩
    let d2 := e.dot tangent
    (e - d2 • tangent).normalize

/-- Per-section body of `sampleHybridTrack` (everything after the section has
been chosen): local re-parameterization and dispatch to the loop sampler or
the spline evaluator. -/
def sampleSection (sec : TrackSection) (p : ℝ) (spline : Curve)
    (loopSegments : List LoopSegment) (trackPoints : List TrackPoint)
    (isLooped : Bool) : Option TrackSample :=
  let localT := (p - sec.startProgress) /
    (sec.endProgress - sec.startProgress)
  if sec.type = SectionType.roll ∧ sec.rollFrame.isSome then
    match sec.rollFrame with
    | some frame => some (sampleVerticalLoopAnalytically frame localT)
    | none => none
  else
    match sec.splineStartT, sec.splineEndT with
    | some startT, some endT =>
      let splineT := startT + localT * (endT - startT)
      let point := spline.getPoint splineT
      let tangent := (spline.getTangent splineT).normalize
      let rollOffset := hybridRollOffset spline loopSegments trackPoints isLooped
        (sec.pointIndex.getD 0)
      some ⟨point + rollOffset, tangent, gramSchmidtUp tangent⟩
    | _, _ => none

/-- `sampleHybridTrack`, translated from the source: `none` on an empty table;
clamp the progress; pick the owning section, falling back to the last section;
then sample within it. -/
def sampleHybridTrack (progress : ℝ) (sections : List TrackSection)
    (spline : Curve) (loopSegments : List LoopSegment)
    (trackPoints : List TrackPoint) (isLooped : Bool) : Option TrackSample :=
  match sections with
  | [] => none
  | s0 :: rest =>
    let p := clampProgress progress
    let sec := (pickSection p (s0 :: rest)).getD
      ((s0 :: rest).getLast (List.cons_ne_nil s0 rest))
    sampleSection sec p spline loopSegments trackPoints isLooped

/-- Well-formedness of a section table: roll sections carry their frame and
spline sections carry their parameter bounds (true of every table the builder
produces). -/
def WellFormedSections (sections : List TrackSection) : Prop :=
  ∀ s ∈ sections,
    (s.type = SectionType.roll → s.rollFrame.isSome = true)
    ∧ (s.type = SectionType.spline →
        s.splineStartT.isSome = true ∧ s.splineEndT.isSome = true)

/-- Physics state carried across animation ticks (`physicsRef.current`). -/
structure PhysicsState where
  currentSpeed : ℝ
  lastHeight : ℝ
  lastProgress : ℝ

/-- The friction multiplier subexpression of `computeRealisticSpeed`:
`angle = atan2(heightDelta, 1)`; full friction when `angle > 0`, half
otherwise. -/
def frictionFactor (heightDelta : ℝ) : ℝ :=
  let friction : ℝ := 0.02
  let angle := Real.arctan heightDelta
  if angle > 0 then 1 - friction else 1 - friction * 0.5

/-- `computeRealisticSpeed`, translated from the source: lift-hill ramp below
progress 0.08, otherwise energy-conservation speed times the friction
multiplier, clamped at the max speed; brake factor 0.96 above progress 0.9.
Returns the new speed and the updated physics state. -/
def computeRealisticSpeed (progress currentHeight : ℝ) (physics : PhysicsState) :
    ℝ × PhysicsState :=
  let maxSpeed : ℝ := 3.5
  let g : ℝ := 0.98
  let liftSpeed : ℝ := 0.5
  let isOnLift := progress < 0.08
  let speed1 :=
    if isOnLift then min liftSpeed (physics.currentSpeed + 0.05)
    else
      let heightDelta := physics.lastHeight - currentHeight
      let energyFromGravity :=
        Real.sqrt (max 0 (physics.currentSpeed ^ 2 + 2 * g * heightDelta))
      min maxSpeed (energyFromGravity * frictionFactor heightDelta)
  let speed2 := if progress > 0.9 then speed1 * 0.96 else speed1
  (speed2, ⟨speed2, currentHeight, progress⟩)

/-- `CoasterMode` of the store. -/
inductive CoasterMode where
  | build
  | ride
  | preview
deriving DecidableEq

/-- The store state (`RollerCoasterState`), data fields only. -/
structure RollerCoasterState where
  mode : CoasterMode
  trackPoints : List TrackPoint
  selectedPointId : Option String
  rideProgress : ℝ
  isRiding : Bool
  rideSpeed : ℝ
  isDraggingPoint : Bool
  isAddingPoints : Bool
  isLooped : Bool
  hasChainLift : Bool
  showWoodSupports : Bool
  isNightMode : Bool
  cameraTarget : Option Vec3

/-- `startRide`: requires at least 2 track points, else leaves the state
untouched (`set` merges, so all other fields are unchanged). -/
def startRide (s : RollerCoasterState) : RollerCoasterState :=
  if 2 ≤ s.trackPoints.length then
    { s with mode := CoasterMode.ride, isRiding := true, rideProgress := 0 }
  else s

/-- `stopRide`: unconditionally back to build mode, not riding, progress 0. -/
def stopRide (s : RollerCoasterState) : RollerCoasterState :=
  { s with mode := CoasterMode.build, isRiding := false, rideProgress := 0 }

/-- Fresh point ids come from the module-level `pointCounter`:
`` `point-${++pointCounter}` ``. -/
def mkPointId (c : ℕ) : String := "point-" ++ toString c

/-- Fallback track point for (always in-bounds) indexed access. -/
def defaultTrackPoint : TrackPoint := ⟨"", 0, 0⟩

/-- `createLoopAtPoint`, first store variant (lead-in, 12-point vertical loop
with inward tilt on the top half, lead-out, spliced after the selected point).
The module-level `pointCounter` is passed and returned explicitly. -/
def createLoopAtPoint (id : String) (pointCounter : ℕ)
    (state : RollerCoasterState) : RollerCoasterState × ℕ :=
  match state.trackPoints.findIdx? (fun p => p.id == id) with
  | none => (state, pointCounter)
  | some pointIndex =>
    let basePoint := state.trackPoints.getD pointIndex defaultTrackPoint
    let pos := basePoint.position
    let direction :=
      if 0 < pointIndex then
        let prevPoint := state.trackPoints.getD (pointIndex - 1) defaultTrackPoint
        let d0 := (pos - prevPoint.position).normalize
        let d1 : Vec3 := ⟨d0.x, 0, d0.z⟩
        if d1.length < 0.1 then (⟨1, 0, 0⟩ : Vec3) else d1.normalize
      else (⟨1, 0, 0⟩ : Vec3)
    let loopRadius : ℝ := 8
    let numLoopPoints : ℕ := 12
    let leadInDist : ℝ := 4
    let leadInPts : List TrackPoint :=
      [⟨mkPointId (pointCounter + 1),
          ⟨pos.x + direction.x * leadInDist, pos.y + 1,
            pos.z + direction.z * leadInDist⟩, 0⟩,
        ⟨mkPointId (pointCounter + 2),
          ⟨pos.x + direction.x * (leadInDist + 3), pos.y + 3,
            pos.z + direction.z * (leadInDist + 3)⟩, 0⟩]
    let loopCenterOffset := leadInDist + 3
    let loopCenterX := pos.x + direction.x * loopCenterOffset
    let loopCenterZ := pos.z + direction.z * loopCenterOffset
    let loopBaseY := pos.y + loopRadius
    let loopPts : List TrackPoint := (List.range numLoopPoints).map (fun k =>
      let i : ℕ := k + 1
      let angle := ((i : ℝ) / numLoopPoints) * (Real.pi * 2)
      let forwardOffset := Real.sin angle * loopRadius
      let heightOffset := -Real.cos angle * loopRadius
      let normalizedAngle := angle / (Real.pi * 2)
      let tilt :=
        if normalizedAngle > 0.25 ∧ normalizedAngle < 0.75 then
          let topProgress := (normalizedAngle - 0.25) / 0.5
          (-(Real.sin (topProgress * Real.pi) * 5))
        else 0
      ⟨mkPointId (pointCounter + 2 + i),
        ⟨loopCenterX + direction.x * forwardOffset, loopBaseY + heightOffset,
          loopCenterZ + direction.z * forwardOffset⟩, tilt⟩)
    let exitX := loopCenterX + direction.x * loopRadius
    let exitZ := loopCenterZ + direction.z * loopRadius
    let leadOutPts : List TrackPoint :=
      [⟨mkPointId (pointCounter + 15),
          ⟨exitX + direction.x * 3, pos.y + 3, exitZ + direction.z * 3⟩, 0⟩,
        ⟨mkPointId (pointCounter + 16),
          ⟨exitX + direction.x * 6, pos.y + 1, exitZ + direction.z * 6⟩, 0⟩]
    let allPoints := leadInPts ++ loopPts ++ leadOutPts
    let newTrackPoints := state.trackPoints.take (pointIndex + 1) ++ allPoints
      ++ state.trackPoints.drop (pointIndex + 1)
    ({ state with trackPoints := newTrackPoints }, pointCounter + 16)

/-- `createLoopAtPoint`, second store variant (shift subsequent points forward
by the loop footprint, then lead-in, 9 arc points, lead-out). -/
def createLoopAtPoint2 (id : String) (pointCounter : ℕ)
    (state : RollerCoasterState) : RollerCoasterState × ℕ :=
  match state.trackPoints.findIdx? (fun p => p.id == id) with
  | none => (state, pointCounter)
  | some pointIndex =>
    let basePoint := state.trackPoints.getD pointIndex defaultTrackPoint
    let pos := basePoint.position
    let forward :=
      if 0 < pointIndex then
        let prevPoint := state.trackPoints.getD (pointIndex - 1) defaultTrackPoint
        let f0 := pos - prevPoint.position
        let f1 : Vec3 := ⟨f0.x, 0, f0.z⟩
        (if f1.length < 0.1 then (⟨1, 0, 0⟩ : Vec3) else f1).normalize
      else (⟨1, 0, 0⟩ : Vec3)
    let loopRadius : ℝ := 8
    let leadIn : ℝ := 3
    let leadOut : ℝ := 3
    let totalLoopLength := leadIn + loopRadius * 2 + leadOut
    let shiftedPoints := (state.trackPoints.drop (pointIndex + 1)).map (fun p =>
      { p with position := (⟨p.position.x + forward.x * totalLoopLength,
          p.position.y, p.position.z + forward.z * totalLoopLength⟩ : Vec3) })
    let loopCenterX := pos.x + forward.x * (leadIn + loopRadius)
    let loopCenterY := pos.y + loopRadius
    let loopCenterZ := pos.z + forward.z * (leadIn + loopRadius)
    let arcPoints : ℕ := 10
    let arc : List TrackPoint := (List.range (arcPoints - 1)).map (fun k =>
      let i : ℕ := k + 1
      let t := (i : ℝ) / arcPoints
      let angle := -(Real.pi / 2) + t * (Real.pi * 2)
      let forwardOffset := Real.sin angle * loopRadius
      let heightOffset := Real.cos angle * loopRadius
      ⟨mkPointId (pointCounter + 1 + i),
        ⟨loopCenterX + forward.x * forwardOffset, loopCenterY + heightOffset,
          loopCenterZ + forward.z * forwardOffset⟩, 0⟩)
    let loopPoints : List TrackPoint :=
      ⟨mkPointId (pointCounter + 1),
        ⟨pos.x + forward.x * leadIn, pos.y, pos.z + forward.z * leadIn⟩, 0⟩
      :: (arc ++ [⟨mkPointId (pointCounter + 11),
        ⟨pos.x + forward.x * (leadIn + loopRadius * 2 + leadOut), pos.y,
          pos.z + forward.z * (leadIn + loopRadius * 2 + leadOut)⟩, 0⟩])
    let newTrackPoints := state.trackPoints.take (pointIndex + 1) ++ loopPoints
      ++ shiftedPoints
    ({ state with trackPoints := newTrackPoints }, pointCounter + 11)

/-- A concrete store state with no track points (fixture). -/
def emptyState : RollerCoasterState :=
  ⟨CoasterMode.build, [], none, 0, false, 1, false, true, false, true, false, false, none⟩

/-- A straight unit-speed test curve along the x axis (concrete fixture). -/
def lineCurve : Curve := ⟨fun t => ⟨t, 0, 0⟩, fun _ => ⟨1, 0, 0⟩⟩

/-- Two distinct test control points on the x axis (concrete fixture). -/
def linePts : List TrackPoint := [⟨"a", ⟨0, 0, 0⟩, 0⟩, ⟨"b", ⟨1, 0, 0⟩, 0⟩]

/-- A concrete store state with two track points (fixture). -/
def twoPointState : RollerCoasterState := { emptyState with trackPoints := linePts }

/-! ## Vector lemmas -/

namespace Vec3

@[simp] theorem zero_x : (0 : Vec3).x = 0 := rfl
@[simp] theorem zero_y : (0 : Vec3).y = 0 := rfl
@[simp] theorem zero_z : (0 : Vec3).z = 0 := rfl
@[simp] theorem add_x (a b : Vec3) : (a + b).x = a.x + b.x := rfl
@[simp] theorem add_y (a b : Vec3) : (a + b).y = a.y + b.y := rfl
@[simp] theorem add_z (a b : Vec3) : (a + b).z = a.z + b.z := rfl
@[simp] theorem sub_x (a b : Vec3) : (a - b).x = a.x - b.x := rfl
@[simp] theorem sub_y (a b : Vec3) : (a - b).y = a.y - b.y := rfl
@[simp] theorem sub_z (a b : Vec3) : (a - b).z = a.z - b.z := rfl
@[simp] theorem neg_x (a : Vec3) : (-a).x = -a.x := rfl
@[simp] theorem neg_y (a : Vec3) : (-a).y = -a.y := rfl
@[simp] theorem neg_z (a : Vec3) : (-a).z = -a.z := rfl
@[simp] theorem smul_x (c : ℝ) (a : Vec3) : (c • a).x = c * a.x := rfl
@[simp] theorem smul_y (c : ℝ) (a : Vec3) : (c • a).y = c * a.y := rfl
@[simp] theorem smul_z (c : ℝ) (a : Vec3) : (c • a).z = c * a.z := rfl

theorem dot_self_nonneg (a : Vec3) : 0 ≤ a.dot a := by
  unfold dot
  nlinarith [mul_self_nonneg a.x, mul_self_nonneg a.y, mul_self_nonneg a.z]

theorem length_nonneg (a : Vec3) : 0 ≤ a.length := Real.sqrt_nonneg _

theorem length_smul (c : ℝ) (a : Vec3) : (c • a).length = |c| * a.length := by
  unfold length dot
  have h : (c • a).x * (c • a).x + (c • a).y * (c • a).y + (c • a).z * (c • a).z
      = c ^ 2 * (a.x * a.x + a.y * a.y + a.z * a.z) := by
    simp only [smul_x, smul_y, smul_z]; ring
  rw [h, Real.sqrt_mul (sq_nonneg c), Real.sqrt_sq_eq_abs]

theorem length_eq_zero_iff (a : Vec3) : a.length = 0 ↔ a = 0 := by
  unfold length
  rw [Real.sqrt_eq_zero (dot_self_nonneg a)]
  unfold dot
  constructor
  · intro h
    have hx : a.x = 0 := by nlinarith [sq_nonneg a.x, sq_nonneg a.y, sq_nonneg a.z]
    have hy : a.y = 0 := by nlinarith [sq_nonneg a.x, sq_nonneg a.y, sq_nonneg a.z]
    have hz : a.z = 0 := by nlinarith [sq_nonneg a.x, sq_nonneg a.y, sq_nonneg a.z]
    ext <;> simpa
  · intro h; subst h; simp

theorem length_normalize (a : Vec3) (h : a.length ≠ 0) : a.normalize.length = 1 := by
  unfold normalize
  rw [if_neg h, length_smul, abs_of_nonneg (inv_nonneg.mpr a.length_nonneg)]
  field_simp

theorem normalize_of_length_one (a : Vec3) (h : a.length = 1) : a.normalize = a := by
  unfold normalize
  rw [if_neg (by rw [h]; norm_num), h]
  ext <;> simp

theorem length_zero : (0 : Vec3).length = 0 := by
  unfold length dot; simp

theorem normalize_zero : Vec3.normalize (0 : Vec3) = 0 := by
  unfold normalize
  rw [if_pos length_zero]

/-- Dot-square of a linear combination of an orthonormal triple. -/
theorem dot_orthonormal_comb (F U R : Vec3) (a b c : ℝ)
    (hFF : F.dot F = 1) (hUU : U.dot U = 1) (hRR : R.dot R = 1)
    (hFU : F.dot U = 0) (hFR : F.dot R = 0) (hUR : U.dot R = 0) :
    (a • F + b • U + c • R).dot (a • F + b • U + c • R) = a ^ 2 + b ^ 2 + c ^ 2 := by
  unfold dot at hFF hUU hRR hFU hFR hUR ⊢
  simp only [add_x, add_y, add_z, smul_x, smul_y, smul_z]
  linear_combination a ^ 2 * hFF + b ^ 2 * hUU + c ^ 2 * hRR
    + (2 * a * b) * hFU + (2 * a * c) * hFR + (2 * b * c) * hUR

end Vec3

/-! ## Values of the eased loop angle -/

theorem loopTheta_zero : loopTheta 0 = 0 := by
  simp [loopTheta]

theorem loopDTheta_zero : loopDTheta 0 = 0 := by
  simp [loopDTheta]

theorem loopTheta_half : loopTheta (1 / 2) = Real.pi := by
  unfold loopTheta
  rw [show Real.pi * 2 * ((1 : ℝ) / 2) = Real.pi by ring, Real.sin_pi]
  ring

theorem loopTheta_one : loopTheta 1 = 2 * Real.pi := by
  unfold loopTheta
  rw [show Real.pi * 2 * (1 : ℝ) = 2 * Real.pi by ring, Real.sin_two_pi]
  ring

/-! ## C2 — unit tangent of the Analytic Loop Sampler -/

/-- **C2** (amended).  For every `BarrelRollFrame` whose `forward`/`up`/`right`
axes are orthonormal and whose radius is positive, and every `t ∈ [0,1)` with
`0 < t` or a nonzero pitch, the tangent returned by
`sampleVerticalLoopAnalytically` is exactly unit length (hence within `1e-4`
of 1).  At `t = 0` with pitch `0` the pre-normalization derivative vanishes
and the returned tangent is the zero vector — see the counterexample. -/
theorem loopSampler_tangent_unit_length (f : BarrelRollFrame)
    (hFF : f.forward.dot f.forward = 1) (hUU : f.up.dot f.up = 1)
    (hRR : f.right.dot f.right = 1) (hFU : f.forward.dot f.up = 0)
    (hFR : f.forward.dot f.right = 0) (hUR : f.up.dot f.right = 0)
    (hr : 0 < f.radius) (t : ℝ) (ht0 : 0 ≤ t) (ht1 : t < 1)
    (hnz : f.pitch ≠ 0 ∨ 0 < t) :
    ((sampleVerticalLoopAnalytically f t).tangent).length = 1 := by
  have htan : (sampleVerticalLoopAnalytically f t).tangent
      = Vec3.normalize
        ((f.pitch + f.radius * Real.cos (loopTheta t) * loopDTheta t) • f.forward
          + (f.radius * Real.sin (loopTheta t) * loopDTheta t) • f.up
          + (f.radius * 0.4 * Real.cos (loopTheta t) * loopDTheta t) • f.right) := rfl
  set a := f.pitch + f.radius * Real.cos (loopTheta t) * loopDTheta t with hadef
  set b := f.radius * Real.sin (loopTheta t) * loopDTheta t with hbdef
  set c := f.radius * 0.4 * Real.cos (loopTheta t) * loopDTheta t with hcdef
  rw [htan]
  apply Vec3.length_normalize
  have hdot := Vec3.dot_orthonormal_comb f.forward f.up f.right a b c
    hFF hUU hRR hFU hFR hUR
  have hpos : 0 < a ^ 2 + b ^ 2 + c ^ 2 := by
    by_cases hts : 0 < t
    · have hcoslt : Real.cos (Real.pi * 2 * t) < 1 := by
        rcases lt_or_eq_of_le (Real.cos_le_one (Real.pi * 2 * t)) with h | h
        · exact h
        · exfalso
          have hb1 : -(2 * Real.pi) < Real.pi * 2 * t := by nlinarith [Real.pi_pos]
          have hb2 : Real.pi * 2 * t < 2 * Real.pi := by nlinarith [Real.pi_pos]
          have h0 := (Real.cos_eq_one_iff_of_lt_of_lt hb1 hb2).mp h
          nlinarith [Real.pi_pos]
      have hdθ : 0 < loopDTheta t := by
        unfold loopDTheta; nlinarith [Real.pi_pos]
      have hS : Real.sin (loopTheta t) ^ 2 + (0.4 : ℝ) ^ 2 * Real.cos (loopTheta t) ^ 2
          ≥ (0.4 : ℝ) ^ 2 := by
        nlinarith [Real.sin_sq_add_cos_sq (loopTheta t), sq_nonneg (Real.sin (loopTheta t))]
      have hbc : b ^ 2 + c ^ 2 = f.radius ^ 2 * loopDTheta t ^ 2 *
          (Real.sin (loopTheta t) ^ 2 + (0.4 : ℝ) ^ 2 * Real.cos (loopTheta t) ^ 2) := by
        rw [hbdef, hcdef]; ring
      nlinarith [sq_nonneg a, mul_pos (mul_pos hr hr) (mul_pos hdθ hdθ), hS, hbc]
    · have ht : t = 0 := le_antisymm (not_lt.mp hts) ht0
      have hp : f.pitch ≠ 0 := by
        rcases hnz with hp | htpos
        · exact hp
        · exact absurd htpos hts
      subst ht
      have hA : a = f.pitch := by rw [hadef, loopDTheta_zero]; ring
      have hB : b = 0 := by rw [hbdef, loopDTheta_zero]; ring
      have hC : c = 0 := by rw [hcdef, loopDTheta_zero]; ring
      rw [hA, hB, hC]
      have hsq : 0 < f.pitch ^ 2 := lt_of_le_of_ne (sq_nonneg _) (Ne.symm (pow_ne_zero 2 hp))
      nlinarith
  unfold Vec3.length
  rw [hdot]
  exact (Real.sqrt_pos.mpr hpos).ne'

/-- Witness for C2: a concrete orthonormal frame with radius 1 and pitch 1
has a unit tangent at `t = 0`. -/
theorem loopSampler_tangent_unit_length_witness :
    ((sampleVerticalLoopAnalytically
      ⟨⟨0, 0, 0⟩, ⟨1, 0, 0⟩, ⟨0, 1, 0⟩, ⟨0, 0, 1⟩, 1, 1⟩ 0).tangent).length = 1 :=
  loopSampler_tangent_unit_length ⟨⟨0, 0, 0⟩, ⟨1, 0, 0⟩, ⟨0, 1, 0⟩, ⟨0, 0, 1⟩, 1, 1⟩
    (by norm_num [Vec3.dot]) (by norm_num [Vec3.dot]) (by norm_num [Vec3.dot])
    (by norm_num [Vec3.dot]) (by norm_num [Vec3.dot]) (by norm_num [Vec3.dot])
    (by norm_num) 0 le_rfl (by norm_num) (Or.inl (by norm_num))

/-- Counterexample to C2 as stated: with pitch `0` (the pitch of the C5 spec
scenario) the tangent at `t = 0` is the zero vector, whose length `0` is not
within `1e-4` of 1. -/
theorem loopSampler_tangent_not_unit_counterexample :
    (sampleVerticalLoopAnalytically
      ⟨⟨0, 0, 0⟩, ⟨1, 0, 0⟩, ⟨0, 1, 0⟩, ⟨0, 0, 1⟩, 1, 0⟩ 0).tangent = (0 : Vec3)
    ∧ ¬ (|Vec3.length (0 : Vec3) - 1| ≤ 1e-4) := by
  constructor
  · have htan : (sampleVerticalLoopAnalytically
        ⟨⟨0, 0, 0⟩, ⟨1, 0, 0⟩, ⟨0, 1, 0⟩, ⟨0, 0, 1⟩, 1, 0⟩ 0).tangent
        = Vec3.normalize
          (((0 : ℝ) + 1 * Real.cos (loopTheta 0) * loopDTheta 0) • (⟨1, 0, 0⟩ : Vec3)
            + ((1 : ℝ) * Real.sin (loopTheta 0) * loopDTheta 0) • (⟨0, 1, 0⟩ : Vec3)
            + ((1 : ℝ) * 0.4 * Real.cos (loopTheta 0) * loopDTheta 0) • (⟨0, 0, 1⟩ : Vec3)) :=
      rfl
    rw [htan, loopTheta_zero, loopDTheta_zero]
    have hv : (((0 : ℝ) + 1 * Real.cos 0 * 0) • (⟨1, 0, 0⟩ : Vec3)
        + ((1 : ℝ) * Real.sin 0 * 0) • (⟨0, 1, 0⟩ : Vec3)
        + ((1 : ℝ) * 0.4 * Real.cos 0 * 0) • (⟨0, 0, 1⟩ : Vec3)) = (0 : Vec3) := by
      ext <;> simp
    rw [hv, Vec3.normalize_zero]
  · rw [Vec3.length_zero]
    norm_num

/-! ## C4 — up-vector inversion of the Analytic Loop Sampler -/

/-- **C4**.  For every `BarrelRollFrame` whose forward and up vectors are
orthonormal, the up vector of the Analytic Loop Sampler equals `up0` at
`t = 0`, `-up0` at `t = 1/2` (apex inversion, `θ = π`), and `up0` at `t = 1`,
per the source formula `up = up0·cos θ − forward·sin θ`,
`θ(t) = 2π(t − sin(2πt)/2π)`. -/
theorem loopSampler_up_inversion (f : BarrelRollFrame)
    (hFF : f.forward.dot f.forward = 1) (hUU : f.up.dot f.up = 1)
    (hFU : f.forward.dot f.up = 0) :
    (sampleVerticalLoopAnalytically f 0).up = f.up
    ∧ (sampleVerticalLoopAnalytically f (1 / 2)).up = -f.up
    ∧ (sampleVerticalLoopAnalytically f 1).up = f.up := by
  have hlen : f.up.length = 1 := by
    unfold Vec3.length; rw [hUU]; exact Real.sqrt_one
  refine ⟨?_, ?_, ?_⟩
  · have h0 : (sampleVerticalLoopAnalytically f 0).up
        = Vec3.normalize ((Real.cos (loopTheta 0)) • f.up
          + (-Real.sin (loopTheta 0)) • f.forward) := rfl
    rw [h0, loopTheta_zero]
    have hv : (Real.cos 0) • f.up + (-Real.sin 0) • f.forward = f.up := by
      ext <;> simp
    rw [hv]
    exact Vec3.normalize_of_length_one _ hlen
  · have h1 : (sampleVerticalLoopAnalytically f (1 / 2)).up
        = Vec3.normalize ((Real.cos (loopTheta (1 / 2))) • f.up
          + (-Real.sin (loopTheta (1 / 2))) • f.forward) := rfl
    rw [h1, loopTheta_half]
    have hv : (Real.cos Real.pi) • f.up + (-Real.sin Real.pi) • f.forward = -f.up := by
      ext <;> simp
    rw [hv]
    have hlen' : (-f.up).length = 1 := by
      unfold Vec3.length
      have hd : (-f.up).dot (-f.up) = 1 := by
        unfold Vec3.dot at hUU ⊢
        simp only [Vec3.neg_x, Vec3.neg_y, Vec3.neg_z]
        linear_combination hUU
      rw [hd]; exact Real.sqrt_one
    exact Vec3.normalize_of_length_one _ hlen'
  · have h2 : (sampleVerticalLoopAnalytically f 1).up
        = Vec3.normalize ((Real.cos (loopTheta 1)) • f.up
          + (-Real.sin (loopTheta 1)) • f.forward) := rfl
    rw [h2, loopTheta_one]
    have hv : (Real.cos (2 * Real.pi)) • f.up + (-Real.sin (2 * Real.pi)) • f.forward
        = f.up := by
      ext <;> simp [Real.cos_two_pi, Real.sin_two_pi]
    rw [hv]
    exact Vec3.normalize_of_length_one _ hlen

/-- Witness for C4 at a concrete orthonormal frame. -/
theorem loopSampler_up_inversion_witness :
    (sampleVerticalLoopAnalytically
      ⟨⟨0, 0, 0⟩, ⟨1, 0, 0⟩, ⟨0, 1, 0⟩, ⟨0, 0, 1⟩, 8, 0⟩ 0).up = (⟨0, 1, 0⟩ : Vec3)
    ∧ (sampleVerticalLoopAnalytically
      ⟨⟨0, 0, 0⟩, ⟨1, 0, 0⟩, ⟨0, 1, 0⟩, ⟨0, 0, 1⟩, 8, 0⟩ (1 / 2)).up
        = -(⟨0, 1, 0⟩ : Vec3)
    ∧ (sampleVerticalLoopAnalytically
      ⟨⟨0, 0, 0⟩, ⟨1, 0, 0⟩, ⟨0, 1, 0⟩, ⟨0, 0, 1⟩, 8, 0⟩ 1).up = (⟨0, 1, 0⟩ : Vec3) :=
  loopSampler_up_inversion ⟨⟨0, 0, 0⟩, ⟨1, 0, 0⟩, ⟨0, 1, 0⟩, ⟨0, 0, 1⟩, 8, 0⟩
    (by norm_num [Vec3.dot]) (by norm_num [Vec3.dot]) (by norm_num [Vec3.dot])

/-! ## Section-table lemmas -/

theorem sumArc_append (ss ts : List TrackSection) :
    sumArc (ss ++ ts) = sumArc ss + sumArc ts := by
  simp [sumArc]

theorem normalizeSectionsFrom_cons (total running : ℝ) (s : TrackSection)
    (rest : List TrackSection) :
    normalizeSectionsFrom total running (s :: rest)
      = { s with startProgress := running / total,
                 endProgress := (running + s.arcLength) / total }
        :: normalizeSectionsFrom total (running + s.arcLength) rest := rfl

theorem normalizeSectionsFrom_map_type (total : ℝ) :
    ∀ (running : ℝ) (ss : List TrackSection),
    (normalizeSectionsFrom total running ss).map TrackSection.type
      = ss.map TrackSection.type := by
  intro running ss
  induction ss generalizing running with
  | nil => rfl
  | cons s rest ih => simp [normalizeSectionsFrom_cons, ih]

theorem normalizeSectionsFrom_chain (total : ℝ) :
    ∀ (running : ℝ) (ss : List TrackSection),
    List.Chain' (fun a b => a.endProgress = b.startProgress)
      (normalizeSectionsFrom total running ss) := by
  intro running ss
  induction ss generalizing running with
  | nil => exact List.chain'_nil
  | cons s rest ih =>
    cases rest with
    | nil =>
      rw [normalizeSectionsFrom_cons]
      simp [normalizeSectionsFrom]
    | cons s2 rest2 =>
      rw [normalizeSectionsFrom_cons, normalizeSectionsFrom_cons]
      refine List.Chain'.cons rfl ?_
      rw [← normalizeSectionsFrom_cons]
      exact ih _

theorem normalizeSectionsFrom_getLast? (total : ℝ) :
    ∀ (running : ℝ) (ss : List TrackSection), ss ≠ [] →
    (normalizeSectionsFrom total running ss).getLast?.map TrackSection.endProgress
      = some ((running + sumArc ss) / total) := by
  intro running ss
  induction ss generalizing running with
  | nil => intro h; exact absurd rfl h
  | cons s rest ih =>
    intro _
    cases rest with
    | nil =>
      rw [normalizeSectionsFrom_cons]
      simp [normalizeSectionsFrom, sumArc]
    | cons s2 rest2 =>
      rw [normalizeSectionsFrom_cons, normalizeSectionsFrom_cons,
        List.getLast?_cons_cons, ← normalizeSectionsFrom_cons,
        ih (running + s.arcLength) (by simp)]
      congr 1
      simp [sumArc]
      ring

theorem buildStep_acc (curve : Curve) (segs : List LoopSegment) (N : ℕ)
    (looped : Bool) (st : BuildState) (ipt : ℕ × TrackPoint)
    (h : st.accumulatedLength = sumArc st.sections) :
    (buildStep curve segs N looped st ipt).accumulatedLength
      = sumArc (buildStep curve segs N looped st ipt).sections := by
  cases hli : lookupLoop segs ipt.2.id with
  | none =>
    simp only [buildStep, hli]
    split
    · exact h
    · simp [sumArc_append, sumArc, h]
  | some loopSeg =>
    simp only [buildStep, hli]
    split
    · simp [sumArc_append, sumArc, h]
    · simp [sumArc_append, sumArc, h]
      ring

theorem foldl_buildStep_acc (curve : Curve) (segs : List LoopSegment) (N : ℕ)
    (looped : Bool) :
    ∀ (l : List (ℕ × TrackPoint)) (st : BuildState),
    st.accumulatedLength = sumArc st.sections →
    (l.foldl (buildStep curve segs N looped) st).accumulatedLength
      = sumArc ((l.foldl (buildStep curve segs N looped) st).sections) := by
  intro l
  induction l with
  | nil => intro st h; simpa using h
  | cons x xs ih =>
    intro st h
    rw [List.foldl_cons]
    exact ih _ (buildStep_acc curve segs N looped st x h)

theorem buildSectionsRaw_acc (curve : Curve) (pts : List TrackPoint)
    (segs : List LoopSegment) (looped : Bool) :
    (buildSectionsRaw curve pts segs looped).accumulatedLength
      = sumArc (buildSectionsRaw curve pts segs looped).sections :=
  foldl_buildStep_acc curve segs pts.length looped pts.enum (initBuildState curve)
    (by simp [initBuildState, sumArc])

theorem buildStep_sections_mono (curve : Curve) (segs : List LoopSegment) (N : ℕ)
    (looped : Bool) (st : BuildState) (ipt : ℕ × TrackPoint) :
    st.sections.length ≤ (buildStep curve segs N looped st ipt).sections.length := by
  cases hli : lookupLoop segs ipt.2.id with
  | none =>
    simp only [buildStep, hli]
    split
    · exact le_refl _
    · simp
  | some loopSeg =>
    simp only [buildStep, hli]
    split
    · simp
    · simp only [List.length_append, List.length_cons, List.length_nil]
      omega

theorem foldl_buildStep_sections_mono (curve : Curve) (segs : List LoopSegment)
    (N : ℕ) (looped : Bool) :
    ∀ (l : List (ℕ × TrackPoint)) (st : BuildState),
    st.sections.length ≤ ((l.foldl (buildStep curve segs N looped) st).sections).length := by
  intro l
  induction l with
  | nil => intro st; exact le_refl _
  | cons x xs ih =>
    intro st
    rw [List.foldl_cons]
    exact le_trans (buildStep_sections_mono curve segs N looped st x) (ih _)

theorem buildSectionsRaw_sections_ne_nil (curve : Curve) (pts : List TrackPoint)
    (segs : List LoopSegment) (looped : Bool) (h2 : 2 ≤ pts.length) :
    (buildSectionsRaw curve pts segs looped).sections ≠ [] := by
  obtain ⟨p0, rest, hp⟩ : ∃ p0 rest, pts = p0 :: rest := by
    cases pts with
    | nil => simp at h2
    | cons a l => exact ⟨a, l, rfl⟩
  subst hp
  have hrest : 1 ≤ rest.length := by simpa using h2
  unfold buildSectionsRaw
  have henum : (p0 :: rest).enum = (0, p0) :: rest.enumFrom 1 := by
    simp [List.enum, List.enumFrom]
  rw [henum, List.foldl_cons]
  have h1 : 1 ≤ ((buildStep curve segs (p0 :: rest).length looped)
      (initBuildState curve) (0, p0)).sections.length := by
    have hcond : ¬((p0 :: rest).length - 1 ≤ 0 ∧ looped = false) := by
      rintro ⟨hc, -⟩
      simp only [List.length_cons] at hc
      omega
    cases hli : lookupLoop segs ((0 : ℕ), p0).2.id with
    | none =>
      simp only [buildStep, hli]
      rw [if_neg hcond]
      simp
    | some loopSeg =>
      simp only [buildStep, hli]
      split
      · simp
      · simp only [List.length_append, List.length_cons, List.length_nil]
        omega
  have h2' := foldl_buildStep_sections_mono curve segs (p0 :: rest).length looped
    (rest.enumFrom 1)
    ((buildStep curve segs (p0 :: rest).length looped) (initBuildState curve) (0, p0))
  intro hnil
  rw [hnil] at h2'
  simp only [List.length_nil] at h2'
  omega

/-! ## C1 — the progress partition invariant of the Section Table Builder -/

/-- **C1** (amended).  For every section table built by the Section Table
Builder from at least 2 track points *whose total measured arc length is
positive*, the first section's `startProgress` is 0, the last section's
`endProgress` is 1 (exactly, in real arithmetic), and every adjacent pair is
contiguous (`endProgress` of one equals `startProgress` of the next).  Without
the positivity hypothesis the claim fails — see the counterexample with two
coincident points. -/
theorem sectionTable_partition_invariant (curve : Curve) (pts : List TrackPoint)
    (segs : List LoopSegment) (looped : Bool) (h2 : 2 ≤ pts.length)
    (hpos : 0 < totalArcLength curve pts segs looped) :
    (buildSections curve pts segs looped).head?.map TrackSection.startProgress = some 0
    ∧ (buildSections curve pts segs looped).getLast?.map TrackSection.endProgress = some 1
    ∧ List.Chain' (fun a b => a.endProgress = b.startProgress)
        (buildSections curve pts segs looped) := by
  have hne := buildSectionsRaw_sections_ne_nil curve pts segs looped h2
  have hacc := buildSectionsRaw_acc curve pts segs looped
  have hpos' : 0 < (buildSectionsRaw curve pts segs looped).accumulatedLength := hpos
  have hbs : buildSections curve pts segs looped
      = normalizeSectionsFrom (buildSectionsRaw curve pts segs looped).accumulatedLength 0
        (buildSectionsRaw curve pts segs looped).sections := rfl
  refine ⟨?_, ?_, ?_⟩
  · obtain ⟨s0, rest, hs⟩ := List.exists_cons_of_ne_nil hne
    rw [hbs, hs, normalizeSectionsFrom_cons]
    simp
  · rw [hbs, normalizeSectionsFrom_getLast? _ _ _ hne, ← hacc, zero_add,
      div_self (ne_of_gt hpos')]
  · rw [hbs]
    exact normalizeSectionsFrom_chain _ _ _

/-- Witness for C1 at a concrete 2-point straight track. -/
theorem sectionTable_partition_invariant_witness :
    (buildSections lineCurve linePts [] false).head?.map TrackSection.startProgress = some 0
    ∧ (buildSections lineCurve linePts [] false).getLast?.map TrackSection.endProgress = some 1
    ∧ List.Chain' (fun a b => a.endProgress = b.startProgress)
        (buildSections lineCurve linePts [] false) := by
  refine sectionTable_partition_invariant lineCurve linePts [] false (by norm_num [linePts]) ?_
  show 0 < totalArcLength lineCurve linePts [] false
  unfold totalArcLength buildSectionsRaw linePts
  simp only [List.enum, List.enumFrom, List.foldl_cons, List.foldl_nil, List.length_cons,
    List.length_nil, buildStep, lookupLoop, initBuildState]
  norm_num
  simp only [splineSegmentLength, List.range_succ, List.range_zero, List.foldl_append,
    List.foldl_cons, List.foldl_nil, lineCurve, Vec3.distanceTo, Vec3.length, Vec3.dot]
  norm_num
  positivity

theorem ctrlPoint_pair_const (P : Vec3) (closed : Bool) (j : ℤ) :
    ctrlPoint [P, P] closed j = P := by
  unfold ctrlPoint
  have hlen : ((([P, P] : List Vec3).length : ℤ)) = 2 := by simp
  rw [hlen]
  split
  · have h0 : 0 ≤ j % (2 : ℤ) := Int.emod_nonneg j (by norm_num)
    have h1 : j % (2 : ℤ) < 2 := Int.emod_lt_of_pos j (by norm_num)
    have h : (j % (2 : ℤ)).toNat = 0 ∨ (j % (2 : ℤ)).toNat = 1 := by omega
    rcases h with h | h <;> rw [h] <;> rfl
  · have h : (max 0 (min j ((2 : ℤ) - 1))).toNat = 0
        ∨ (max 0 (min j ((2 : ℤ) - 1))).toNat = 1 := by omega
    rcases h with h | h <;> rw [h] <;> rfl

theorem catmullRomPoint_const (P : Vec3) (s : ℝ) : catmullRomPoint P P P P s = P := by
  unfold catmullRomPoint
  ext <;> simp <;> ring

theorem catmullRomCurve_pair_getPoint_const (P : Vec3) (closed : Bool) (t : ℝ) :
    (catmullRomCurve [P, P] closed).getPoint t = P := by
  simp only [catmullRomCurve]
  rw [ctrlPoint_pair_const, ctrlPoint_pair_const, ctrlPoint_pair_const,
    ctrlPoint_pair_const, catmullRomPoint_const]

theorem Vec3.distanceTo_self (a : Vec3) : a.distanceTo a = 0 := by
  unfold Vec3.distanceTo
  have h : a - a = 0 := by ext <;> simp
  rw [h, Vec3.length_zero]

theorem foldl_add_of_forall_zero {α : Type} (d : α → ℝ) :
    ∀ (l : List α) (x : ℝ), (∀ s ∈ l, d s = 0) →
    l.foldl (fun len s => len + d s) x = x := by
  intro l
  induction l with
  | nil => intro x _; rfl
  | cons y ys ih =>
    intro x h
    rw [List.foldl_cons, h y (List.mem_cons_self y ys), add_zero]
    exact ih x (fun s hs => h s (List.mem_cons_of_mem y hs))

theorem splineSegmentLength_of_const (curve : Curve) (P : Vec3)
    (h : ∀ t, curve.getPoint t = P) (a b : ℝ) :
    splineSegmentLength curve a b = 0 := by
  simp only [splineSegmentLength]
  exact foldl_add_of_forall_zero _ _ _
    (fun s _ => by rw [h, h, Vec3.distanceTo_self])

/-- Counterexample to C1 as stated: two coincident control points give a
degenerate (constant) curve, the total measured arc length is 0, and the
single section's `endProgress` is `0/0 = 0`, not 1 (`|0 - 1| > 1e-6`); in the
floating-point original the same division yields `NaN`.  The invariant
therefore needs the positive-total-arc-length hypothesis. -/
theorem sectionTable_partition_counterexample :
    ([(⟨"a", ⟨0, 0, 0⟩, 0⟩ : TrackPoint), ⟨"b", ⟨0, 0, 0⟩, 0⟩] : List TrackPoint).length = 2
    ∧ (coasterSections [⟨"a", ⟨0, 0, 0⟩, 0⟩, ⟨"b", ⟨0, 0, 0⟩, 0⟩] [] false).map
        TrackSection.endProgress = [0]
    ∧ ¬ (|(0 : ℝ) - 1| ≤ 1e-6) := by
  refine ⟨rfl, ?_, by norm_num⟩
  have hconst : ∀ t,
      (catmullRomCurve [(⟨0, 0, 0⟩ : Vec3), ⟨0, 0, 0⟩] false).getPoint t = ⟨0, 0, 0⟩ :=
    catmullRomCurve_pair_getPoint_const _ false
  simp only [coasterSections, getTrackCurve, List.length_cons, List.length_nil,
    List.map_cons, List.map_nil]
  norm_num
  simp only [buildSections, buildSectionsRaw, List.enum, List.enumFrom, List.foldl_cons,
    List.foldl_nil, List.length_cons, List.length_nil, buildStep, lookupLoop,
    initBuildState]
  norm_num
  simp only [splineSegmentLength_of_const _ _ hconst]
  norm_num [normalizeSectionsFrom]

/-! ## C8 — orphan loop segments are ignored by the Section Table Builder -/

theorem snd_mem_of_mem_enumFrom {α : Type} :
    ∀ {l : List α} {n : ℕ} {x : ℕ × α}, x ∈ l.enumFrom n → x.2 ∈ l := by
  intro l
  induction l with
  | nil => intro n x h; simp [List.enumFrom] at h
  | cons a as ih =>
    intro n x h
    rw [show (a :: as).enumFrom n = (n, a) :: as.enumFrom (n + 1) from rfl] at h
    rcases List.mem_cons.mp h with h | h
    · subst h; exact List.mem_cons_self a as
    · exact List.mem_cons_of_mem a (ih h)

theorem snd_mem_of_mem_enum {α : Type} {l : List α} {x : ℕ × α}
    (h : x ∈ l.enum) : x.2 ∈ l :=
  snd_mem_of_mem_enumFrom h

theorem foldl_buildStep_segs_congr (curve : Curve) (segs1 segs2 : List LoopSegment)
    (N : ℕ) (looped : Bool) :
    ∀ (l : List (ℕ × TrackPoint)) (st : BuildState),
    (∀ x ∈ l, lookupLoop segs1 x.2.id = lookupLoop segs2 x.2.id) →
    l.foldl (buildStep curve segs1 N looped) st
      = l.foldl (buildStep curve segs2 N looped) st := by
  intro l
  induction l with
  | nil => intro st _; rfl
  | cons x xs ih =>
    intro st h
    rw [List.foldl_cons, List.foldl_cons]
    have hx := h x (List.mem_cons_self x xs)
    have hstep : buildStep curve segs1 N looped st x = buildStep curve segs2 N looped st x := by
      simp only [buildStep, hx]
    rw [hstep]
    exact ih _ (fun y hy => h y (List.mem_cons_of_mem x hy))

theorem coasterSections_segs_congr (pts : List TrackPoint)
    (segs1 segs2 : List LoopSegment) (looped : Bool)
    (h : ∀ p ∈ pts, lookupLoop segs1 p.id = lookupLoop segs2 p.id) :
    coasterSections pts segs1 looped = coasterSections pts segs2 looped := by
  unfold coasterSections
  split
  · rfl
  · cases hc : getTrackCurve pts looped with
    | none => rfl
    | some c =>
      have hraw : buildSectionsRaw c pts segs1 looped = buildSectionsRaw c pts segs2 looped :=
        foldl_buildStep_segs_congr c segs1 segs2 pts.length looped pts.enum
          (initBuildState c) (fun x hx => h x.2 (snd_mem_of_mem_enum hx))
      simp only [buildSections, hraw]

theorem lookupLoop_middle (l1 l2 : List LoopSegment) (o : LoopSegment) (k : String)
    (hk : k ≠ o.entryPointId) :
    lookupLoop (l1 ++ o :: l2) k = lookupLoop (l1 ++ l2) k := by
  unfold lookupLoop
  rw [List.foldl_append, List.foldl_cons, List.foldl_append]
  congr 1
  exact if_neg (fun hh => hk hh.symm)

theorem lookupLoop_nil (k : String) : lookupLoop [] k = none := rfl

theorem foldl_buildStep_no_segs_spline (curve : Curve) (N : ℕ) (looped : Bool) :
    ∀ (l : List (ℕ × TrackPoint)) (st : BuildState),
    (∀ s ∈ st.sections, s.type = SectionType.spline) →
    ∀ s ∈ (l.foldl (buildStep curve [] N looped) st).sections,
      s.type = SectionType.spline := by
  intro l
  induction l with
  | nil => intro st h; exact h
  | cons x xs ih =>
    intro st h
    rw [List.foldl_cons]
    apply ih
    intro s hs
    simp only [buildStep, lookupLoop_nil] at hs
    split at hs
    · exact h s hs
    · rcases List.mem_append.mp hs with hmem | hmem
      · exact h s hmem
      · rw [List.mem_singleton.mp hmem]

theorem coasterSections_no_segs_all_spline (pts : List TrackPoint) (looped : Bool) :
    ∀ s ∈ coasterSections pts [] looped, s.type = SectionType.spline := by
  intro s hs
  unfold coasterSections at hs
  split at hs
  · simp at hs
  · cases hc : getTrackCurve pts looped with
    | none => rw [hc] at hs; simp at hs
    | some c =>
      rw [hc] at hs
      unfold buildSections at hs
      have hty : s.type ∈ ((normalizeSectionsFrom
          (buildSectionsRaw c pts [] looped).accumulatedLength 0
          (buildSectionsRaw c pts [] looped).sections).map TrackSection.type) :=
        List.mem_map_of_mem _ hs
      rw [normalizeSectionsFrom_map_type] at hty
      obtain ⟨s0, hs0, he⟩ := List.mem_map.mp hty
      rw [← he]
      exact foldl_buildStep_no_segs_spline c pts.length looped pts.enum
        (initBuildState c) (by intro u hu; simp [initBuildState] at hu) s0 hs0

/-- **C8**.  A `LoopSegment` whose `entryPointId` matches no track point is
silently ignored: the section table is identical to the one built without it,
and with no other loop segments the table has only spline sections. -/
theorem orphan_loop_segment_ignored (pts : List TrackPoint)
    (l1 l2 : List LoopSegment) (o : LoopSegment) (looped : Bool)
    (h : ∀ p ∈ pts, p.id ≠ o.entryPointId) :
    coasterSections pts (l1 ++ o :: l2) looped = coasterSections pts (l1 ++ l2) looped
    ∧ ∀ s ∈ coasterSections pts [o] looped, s.type = SectionType.spline := by
  constructor
  · exact coasterSections_segs_congr pts _ _ looped
      (fun p hp => lookupLoop_middle l1 l2 o p.id (h p hp))
  · have h1 : coasterSections pts [o] looped = coasterSections pts [] looped :=
      coasterSections_segs_congr pts [o] [] looped
        (fun p hp => lookupLoop_middle [] [] o p.id (h p hp))
    rw [h1]
    exact coasterSections_no_segs_all_spline pts looped

/-- Witness for C8: an orphan segment on a concrete 2-point track changes
nothing. -/
theorem orphan_loop_segment_ignored_witness :
    coasterSections linePts [⟨"L", "zzz", 8, 0⟩] false = coasterSections linePts [] false :=
  (orphan_loop_segment_ignored linePts [] [] ⟨"L", "zzz", 8, 0⟩ false
    (by intro p hp; fin_cases hp <;> simp [linePts])).1

/-! ## C5 — the 3-point loop scenario -/

theorem Vec3.length_unitY : (⟨0, 1, 0⟩ : Vec3).length = 1 := by
  unfold Vec3.length Vec3.dot
  norm_num [Real.sqrt_one]

/-- At local `t = 1/2` (apex, `θ = π`) a pitch-0 loop sample sits `2·radius`
along the frame's up vector above the entry position. -/
theorem loopSample_half_point (f : BarrelRollFrame) (hp : f.pitch = 0) :
    (sampleVerticalLoopAnalytically f (1 / 2)).point
      = f.entryPos + (2 * f.radius) • f.up := by
  have hpt : (sampleVerticalLoopAnalytically f (1 / 2)).point
      = f.entryPos
        + (f.pitch * (1 / 2) + f.radius * Real.sin (loopTheta (1 / 2))) • f.forward
        + (f.radius * (1 - Real.cos (loopTheta (1 / 2)))) • f.up
        + (f.radius * 0.4 * Real.sin (loopTheta (1 / 2))) • f.right := rfl
  rw [hpt, loopTheta_half, Real.sin_pi, Real.cos_pi, hp]
  ext <;> simp only [Vec3.add_x, Vec3.add_y, Vec3.add_z, Vec3.smul_x, Vec3.smul_y,
    Vec3.smul_z] <;> ring

/-- When the entry tangent is horizontal and nonzero, the frame's up vector is
the world up. -/
theorem computeRollFrame_up_of_horizontal (spline : Curve) (splineT radius pitch : ℝ)
    (off : Vec3) (hy : (spline.getTangent splineT).y = 0)
    (hnz : spline.getTangent splineT ≠ 0) :
    (computeRollFrame spline splineT radius pitch off).up = ⟨0, 1, 0⟩ := by
  have hlnz : (spline.getTangent splineT).length ≠ 0 := by
    intro h0
    exact hnz ((Vec3.length_eq_zero_iff _).mp h0)
  have hfy : ((spline.getTangent splineT).normalize).y = 0 := by
    unfold Vec3.normalize
    rw [if_neg hlnz]
    simp [hy]
  have hdot : (⟨0, 1, 0⟩ : Vec3).dot ((spline.getTangent splineT).normalize) = 0 := by
    unfold Vec3.dot
    simp [hfy]
  simp only [computeRollFrame, hdot]
  have hsub : (⟨0, 1, 0⟩ : Vec3) - (0 : ℝ) • ((spline.getTangent splineT).normalize)
      = ⟨0, 1, 0⟩ := by
    ext <;> simp
  rw [hsub, if_pos (by rw [Vec3.length_unitY]; norm_num)]
  exact Vec3.normalize_of_length_one _ Vec3.length_unitY

/-- **C5**.  For an open 3-point track with one `LoopSegment` anchored at the
middle point, radius 8 and pitch 0, the section table is
(spline, roll, spline) in order, the roll section carries a frame `f`, the
loop sample at local `t = 1/2` is offset `2·8` along `f.up` above `f.entryPos`,
and when the entry tangent is horizontal the y offset is exactly `2·8`. -/
theorem threePoint_loop_scenario (curve : Curve) (p1 p2 p3 : TrackPoint)
    (seg : LoopSegment) (hr : seg.radius = 8) (hp : seg.pitch = 0)
    (he : seg.entryPointId = p2.id) (h1 : p1.id ≠ p2.id) (h3 : p3.id ≠ p2.id) :
    ((buildSections curve [p1, p2, p3] [seg] false).map TrackSection.type
      = [SectionType.spline, SectionType.roll, SectionType.spline])
    ∧ ∃ f : BarrelRollFrame,
        ((buildSections curve [p1, p2, p3] [seg] false)[1]?).bind TrackSection.rollFrame
          = some f
        ∧ (sampleVerticalLoopAnalytically f (1 / 2)).point
            = f.entryPos + ((2 * 8 : ℝ)) • f.up
        ∧ ((curve.getTangent ((1 : ℝ) / 2)).y = 0 →
            curve.getTangent ((1 : ℝ) / 2) ≠ 0 →
            (sampleVerticalLoopAnalytically f (1 / 2)).point.y = f.entryPos.y + 2 * 8) := by
  have e1 : lookupLoop [seg] p1.id = none := by
    simp only [lookupLoop, List.foldl_cons, List.foldl_nil, he]
    exact if_neg (fun hh => h1 hh.symm)
  have e2 : lookupLoop [seg] p2.id = some seg := by
    simp [lookupLoop, he]
  have e3 : lookupLoop [seg] p3.id = none := by
    simp only [lookupLoop, List.foldl_cons, List.foldl_nil, he]
    exact if_neg (fun hh => h3 hh.symm)
  constructor
  · simp only [buildSections, buildSectionsRaw, List.enum, List.enumFrom, List.foldl_cons,
      List.foldl_nil, List.length_cons, List.length_nil, buildStep, e1, e2, e3]
    norm_num [normalizeSectionsFrom]
  · refine ⟨computeRollFrame curve ((1 : ℝ) / 2) seg.radius seg.pitch 0, ?_, ?_, ?_⟩
    · simp only [buildSections, buildSectionsRaw, List.enum, List.enumFrom, List.foldl_cons,
        List.foldl_nil, List.length_cons, List.length_nil, buildStep, initBuildState,
        e1, e2, e3]
      norm_num [normalizeSectionsFrom]
    · have hpf : (computeRollFrame curve ((1 : ℝ) / 2) seg.radius seg.pitch 0).pitch = 0 := by
        rw [show (computeRollFrame curve ((1 : ℝ) / 2) seg.radius seg.pitch 0).pitch
          = seg.pitch from rfl, hp]
      rw [loopSample_half_point _ hpf,
        show (computeRollFrame curve ((1 : ℝ) / 2) seg.radius seg.pitch 0).radius
          = seg.radius from rfl, hr]
    · intro hy hnz
      have hpf : (computeRollFrame curve ((1 : ℝ) / 2) seg.radius seg.pitch 0).pitch = 0 := by
        rw [show (computeRollFrame curve ((1 : ℝ) / 2) seg.radius seg.pitch 0).pitch
          = seg.pitch from rfl, hp]
      rw [loopSample_half_point _ hpf,
        show (computeRollFrame curve ((1 : ℝ) / 2) seg.radius seg.pitch 0).radius
          = seg.radius from rfl, hr,
        computeRollFrame_up_of_horizontal curve ((1 : ℝ) / 2) 8 seg.pitch 0 hy hnz]
      simp

/-- Witness for C5: the spline/roll/spline section layout at a concrete curve,
points and segment. -/
theorem threePoint_loop_scenario_witness :
    ((buildSections ⟨fun t => ⟨10 * t, 0, 0⟩, fun _ => ⟨10, 0, 0⟩⟩
      [⟨"a", ⟨0, 0, 0⟩, 0⟩, ⟨"b", ⟨10, 0, 0⟩, 0⟩, ⟨"c", ⟨20, 0, 0⟩, 0⟩]
      [⟨"L", "b", 8, 0⟩] false).map TrackSection.type
      = [SectionType.spline, SectionType.roll, SectionType.spline]) :=
  (threePoint_loop_scenario ⟨fun t => ⟨10 * t, 0, 0⟩, fun _ => ⟨10, 0, 0⟩⟩
    ⟨"a", ⟨0, 0, 0⟩, 0⟩ ⟨"b", ⟨10, 0, 0⟩, 0⟩ ⟨"c", ⟨20, 0, 0⟩, 0⟩ ⟨"L", "b", 8, 0⟩
    rfl rfl rfl (by decide) (by decide)).1

/-! ## C6 — totality and clamping of the Hybrid Track Sampler -/

theorem pickSection_mem (p : ℝ) :
    ∀ (l : List TrackSection) (s : TrackSection), pickSection p l = some s → s ∈ l := by
  intro l
  induction l with
  | nil => intro s h; simp [pickSection] at h
  | cons a rest ih =>
    intro s h
    unfold pickSection at h
    split at h
    · exact (Option.some.injEq _ _ ▸ h) ▸ List.mem_cons_self a rest
    · exact List.mem_cons_of_mem a (ih s h)

theorem clampProgress_idem (p : ℝ) :
    clampProgress (clampProgress p) = clampProgress p := by
  unfold clampProgress
  have h1 : max 0 (min p 0.9999) ≤ (0.9999 : ℝ) :=
    max_le (by norm_num) (min_le_right _ _)
  have h2 : (0 : ℝ) ≤ max 0 (min p 0.9999) := le_max_left _ _
  rw [min_eq_left h1, max_eq_right h2]

theorem sampleSection_isSome (sec : TrackSection) (p : ℝ) (spline : Curve)
    (loopSegments : List LoopSegment) (trackPoints : List TrackPoint) (isLooped : Bool)
    (h1 : sec.type = SectionType.roll → sec.rollFrame.isSome = true)
    (h2 : sec.type = SectionType.spline →
      sec.splineStartT.isSome = true ∧ sec.splineEndT.isSome = true) :
    (sampleSection sec p spline loopSegments trackPoints isLooped).isSome = true := by
  unfold sampleSection
  by_cases hc : sec.type = SectionType.roll ∧ sec.rollFrame.isSome = true
  · rw [if_pos hc]
    cases hf : sec.rollFrame with
    | none => rw [hf] at hc; simp at hc
    | some fr => simp
  · rw [if_neg hc]
    cases hty : sec.type with
    | roll => exact absurd ⟨hty, h1 hty⟩ hc
    | spline =>
      obtain ⟨ha, hb⟩ := h2 hty
      cases hs1 : sec.splineStartT with
      | none => rw [hs1] at ha; simp at ha
      | some a =>
        cases hs2 : sec.splineEndT with
        | none => rw [hs2] at hb; simp at hb
        | some b => simp

/-- **C6** (amended).  The Hybrid Track Sampler returns `none` on an empty
section table; on a nonempty *well-formed* table (roll sections carry their
frame, spline sections carry their bounds — true of all builder output) it
always returns a sample; out-of-range progress is clamped
(`max 0 (min p 0.9999)`), so sampling never fails; and when no section's
`[startProgress, endProgress)` interval contains the clamped progress the
sampler falls back to the last section.  (As literally stated the claim is
false: a malformed nonempty table also yields `none` — see the
counterexample.) -/
theorem sampleHybridTrack_spec (progress : ℝ) (sections : List TrackSection)
    (spline : Curve) (loopSegments : List LoopSegment)
    (trackPoints : List TrackPoint) (isLooped : Bool) :
    (sampleHybridTrack progress [] spline loopSegments trackPoints isLooped = none)
    ∧ (sections ≠ [] → WellFormedSections sections →
        (sampleHybridTrack progress sections spline loopSegments trackPoints
          isLooped).isSome = true)
    ∧ (sampleHybridTrack progress sections spline loopSegments trackPoints isLooped
        = sampleHybridTrack (clampProgress progress) sections spline loopSegments
            trackPoints isLooped)
    ∧ (∀ h : sections ≠ [],
        pickSection (clampProgress progress) sections = none →
        sampleHybridTrack progress sections spline loopSegments trackPoints isLooped
          = sampleSection (sections.getLast h) (clampProgress progress) spline
              loopSegments trackPoints isLooped) := by
  refine ⟨rfl, ?_, ?_, ?_⟩
  · intro hne hwf
    cases sections with
    | nil => exact absurd rfl hne
    | cons s0 rest =>
      unfold sampleHybridTrack
      have hmem : (pickSection (clampProgress progress) (s0 :: rest)).getD
          ((s0 :: rest).getLast (List.cons_ne_nil s0 rest)) ∈ s0 :: rest := by
        cases hpick : pickSection (clampProgress progress) (s0 :: rest) with
        | none => simp only [Option.getD_none]; exact List.getLast_mem _
        | some s => simp only [Option.getD_some]; exact pickSection_mem _ _ _ hpick
      obtain ⟨ha, hb⟩ := hwf _ hmem
      exact sampleSection_isSome _ _ spline loopSegments trackPoints isLooped ha hb
  · cases sections with
    | nil => rfl
    | cons s0 rest => simp only [sampleHybridTrack, clampProgress_idem]
  · intro h hpick
    cases sections with
    | nil => exact absurd rfl h
    | cons s0 rest => simp only [sampleHybridTrack, hpick, Option.getD_none]

/-- Witness for C6: a concrete well-formed single-spline table yields a
sample. -/
theorem sampleHybridTrack_spec_witness :
    (sampleHybridTrack 0.3
      [⟨SectionType.spline, 0, 1, 1, none, some 0, some 1, some 0⟩]
      lineCurve [] linePts false).isSome = true :=
  (sampleHybridTrack_spec 0.3
    [⟨SectionType.spline, 0, 1, 1, none, some 0, some 1, some 0⟩]
    lineCurve [] linePts false).2.1 (by simp)
    (by
      intro s hs
      rw [List.mem_singleton.mp hs]
      exact ⟨by simp, fun _ => ⟨rfl, rfl⟩⟩)

/-- Counterexample to C6 as literally stated ("returns none exactly when the
section list is empty"): a nonempty table whose spline section is missing its
bounds also makes the sampler return `none`. -/
theorem sampleHybridTrack_none_counterexample :
    sampleHybridTrack (1 / 2)
      [⟨SectionType.spline, 0, 1, 1, none, none, none, none⟩]
      lineCurve [] linePts false = none
    ∧ ([⟨SectionType.spline, 0, 1, 1, none, none, none, none⟩] : List TrackSection)
        ≠ [] := by
  refine ⟨?_, by simp⟩
  simp only [sampleHybridTrack]
  have hc : clampProgress ((1 : ℝ) / 2) = 1 / 2 := by
    unfold clampProgress
    rw [min_eq_left (by norm_num), max_eq_right (by norm_num)]
  rw [hc]
  have hpick : pickSection ((1 : ℝ) / 2)
      [(⟨SectionType.spline, 0, 1, 1, none, none, none, none⟩ : TrackSection)]
      = some ⟨SectionType.spline, 0, 1, 1, none, none, none, none⟩ := by
    unfold pickSection
    rw [if_pos]
    constructor <;> norm_num
  rw [hpick, Option.getD_some]
  unfold sampleSection
  rw [if_neg (by simp)]

/-! ## C3 — the friction multiplier of the Ride Physics Integrator -/

theorem arctan_one_pos : 0 < Real.arctan 1 := by
  have h := Real.arctan_strictMono (show (0 : ℝ) < 1 by norm_num)
  rwa [Real.arctan_zero] at h

/-- **C3** (code bug).  The code's own comment says "Apply friction on
flat/uphill sections", and the spec says the multiplier is stronger (smaller)
on flat/uphill than downhill.  The code does the opposite: descending
(`heightDelta = 1`, `angle > 0`) gets multiplier `0.98`, flat/uphill
(`heightDelta ≤ 0`) gets `0.99`, so the downhill multiplier is the smaller
one; a concrete flat step outside the lift zone multiplies the energy speed
by `0.99`. -/
theorem frictionFactor_code_bug :
    frictionFactor (-1) = 0.99
    ∧ frictionFactor 1 = 0.98
    ∧ frictionFactor 1 < frictionFactor (-1)
    ∧ (computeRealisticSpeed 0.5 0 ⟨1, 0, 0⟩).1 = 0.99 := by
  have hneg : Real.arctan (-1 : ℝ) < 0 := by
    rw [show ((-1 : ℝ)) = -(1 : ℝ) from rfl, Real.arctan_neg]
    linarith [arctan_one_pos]
  have hf1 : frictionFactor (-1) = 0.99 := by
    unfold frictionFactor
    rw [if_neg (not_lt.mpr hneg.le)]
    norm_num
  have hf2 : frictionFactor 1 = 0.98 := by
    unfold frictionFactor
    rw [if_pos arctan_one_pos]
    norm_num
  have hf0 : frictionFactor (0 : ℝ) = 0.99 := by
    unfold frictionFactor
    rw [Real.arctan_zero, if_neg (lt_irrefl 0)]
    norm_num
  refine ⟨hf1, hf2, by rw [hf1, hf2]; norm_num, ?_⟩
  simp only [computeRealisticSpeed]
  rw [if_neg (show ¬((0.5 : ℝ) < 0.08) by norm_num),
    if_neg (show ¬((0.5 : ℝ) > 0.9) by norm_num)]
  rw [show (0 : ℝ) - 0 = 0 by norm_num, hf0]
  rw [show (1 : ℝ) ^ 2 + 2 * 0.98 * 0 = 1 by norm_num, max_eq_right (by norm_num : (0:ℝ) ≤ 1),
    Real.sqrt_one]
  rw [min_eq_right (by norm_num : (1 : ℝ) * 0.99 ≤ 3.5)]
  norm_num

/-! ## C7 — startRide requires at least two points -/

/-- **C7**.  With fewer than 2 track points `startRide` leaves the whole state
unchanged; with at least 2 it sets `mode` to ride, `isRiding` to `true` and
resets `rideProgress` to 0. -/
theorem startRide_spec (s : RollerCoasterState) :
    (s.trackPoints.length < 2 → startRide s = s)
    ∧ (2 ≤ s.trackPoints.length →
        (startRide s).mode = CoasterMode.ride
        ∧ (startRide s).isRiding = true
        ∧ (startRide s).rideProgress = 0) := by
  constructor
  · intro h
    unfold startRide
    rw [if_neg (by omega)]
  · intro h
    unfold startRide
    rw [if_pos h]
    exact ⟨rfl, rfl, rfl⟩

/-- Witness for C7 at two concrete states (0 points and 2 points). -/
theorem startRide_spec_witness :
    (startRide emptyState = emptyState)
    ∧ ((startRide twoPointState).mode = CoasterMode.ride
      ∧ (startRide twoPointState).isRiding = true
      ∧ (startRide twoPointState).rideProgress = 0) :=
  ⟨(startRide_spec emptyState).1 (by norm_num [emptyState]),
    (startRide_spec twoPointState).2 (by norm_num [twoPointState, emptyState, linePts])⟩

/-! ## C10 — stopRide resets mode, riding flag and progress -/

/-- **C10**.  `stopRide` sets `mode := build`, `isRiding := false`,
`rideProgress := 0`, and leaves every other state field (in particular
`trackPoints`) unchanged. -/
theorem stopRide_spec (s : RollerCoasterState) :
    (stopRide s).mode = CoasterMode.build
    ∧ (stopRide s).isRiding = false
    ∧ (stopRide s).rideProgress = 0
    ∧ (stopRide s).trackPoints = s.trackPoints
    ∧ (stopRide s).selectedPointId = s.selectedPointId
    ∧ (stopRide s).rideSpeed = s.rideSpeed
    ∧ (stopRide s).isDraggingPoint = s.isDraggingPoint
    ∧ (stopRide s).isAddingPoints = s.isAddingPoints
    ∧ (stopRide s).isLooped = s.isLooped
    ∧ (stopRide s).hasChainLift = s.hasChainLift
    ∧ (stopRide s).showWoodSupports = s.showWoodSupports
    ∧ (stopRide s).isNightMode = s.isNightMode
    ∧ (stopRide s).cameraTarget = s.cameraTarget :=
  ⟨rfl, rfl, rfl, rfl, rfl, rfl, rfl, rfl, rfl, rfl, rfl, rfl, rfl⟩

/-! ## C9 — createLoopAtPoint with an unknown id is a no-op -/

/-- **C9**.  When the given id matches no track point, both store variants of
`createLoopAtPoint` return the state (and the id counter) unchanged. -/
theorem createLoopAtPoint_missing_id (id : String) (c : ℕ) (s : RollerCoasterState)
    (h : ∀ p ∈ s.trackPoints, p.id ≠ id) :
    createLoopAtPoint id c s = (s, c) ∧ createLoopAtPoint2 id c s = (s, c) := by
  have hfind : s.trackPoints.findIdx? (fun p => p.id == id) = none := by
    rw [List.findIdx?_eq_none_iff]
    intro p hp
    simpa using h p hp
  constructor
  · unfold createLoopAtPoint
    rw [hfind]
  · unfold createLoopAtPoint2
    rw [hfind]

/-- Witness for C9 at a concrete state and id. -/
theorem createLoopAtPoint_missing_id_witness :
    createLoopAtPoint "zzz" 0 twoPointState = (twoPointState, 0)
    ∧ createLoopAtPoint2 "zzz" 0 twoPointState = (twoPointState, 0) :=
  createLoopAtPoint_missing_id "zzz" 0 twoPointState
    (by
      intro p hp
      simp only [twoPointState, emptyState, linePts] at hp
      fin_cases hp <;> simp)

end
